import Mathlib

/-!
Verification development for the cowabunga L-Store-style database engine.

The repository splits into a Python host layer (`src/lstore`, `src/cowabunga`,
the test harnesses) and a Rust extension `cowabunga_rs` that implements the
storage engine (tables, buffer pool, transactions).  The Python layer is
embedded here directly from its source; the engine operations that live only
in the Rust extension are modelled from the specification, and each such
definition says so in its doc comment.
-/

namespace Cowabunga

/-! ## Engine model: records, version chains, projection

Modelled from the spec: the table/record machinery lives in the Rust
extension `cowabunga_rs.table_module`, which is not part of `src/`; these
definitions follow spec sections 3, 4.5 and 4.7 (base record plus a chain of
full tail snapshots, newest first; `select_version` walks the chain by
`|version|` steps, `version > 0` treated as `0`; results are projected in the
dense form). -/

/-- A row of fixed-width signed integers (one value per user column). -/
abbrev Row := List Int

/-- An update mask: for each column, `some v` writes `v`, `none` keeps the
current value (spec section 9: `{Set(i64), Keep}` tagged values). -/
abbrev UpdateMask := List (Option Int)

/-- Apply one update mask to the current snapshot: each column stores the new
value if provided, else the latest value (spec section 4.5, update step 2). -/
def applyUpdate (cur : Row) (mask : UpdateMask) : Row :=
  List.zipWith (fun c m => m.getD c) cur mask

/-- A versioned record: the base snapshot plus the tail-record chain.
`tails` lists full tail snapshots newest first, mirroring the indirection
chain of spec section 3 (I3). -/
structure VRecord where
  base : Row
  tails : List Row
  deriving Repr, DecidableEq

/-- The latest snapshot of a record: the chain head, or the base when the
record was never updated. -/
def VRecord.latest (r : VRecord) : Row :=
  r.tails.headD r.base

/-- Modelled from the spec (section 4.5): an update appends a full snapshot
of the record's new state at the head of the tail chain. -/
def VRecord.update (r : VRecord) (mask : UpdateMask) : VRecord :=
  ⟨r.base, applyUpdate r.latest mask :: r.tails⟩

/-- The record obtained from base values `base` after the updates `masks`
have been applied in order. -/
def recOf (base : Row) (masks : List UpdateMask) : VRecord :=
  masks.foldl VRecord.update ⟨base, []⟩

/-- The snapshot of a record after its first `k` updates (the state reached
after rewinding all later updates). -/
def stateAfter (base : Row) (masks : List UpdateMask) (k : Nat) : Row :=
  (masks.take k).foldl applyUpdate base

/-- How many tail records a read at version `v` skips: `|v|` for `v ≤ 0`,
while `v > 0` is treated as `0` (spec section 4.7). -/
def steps (v : Int) : Nat :=
  if 0 < v then 0 else v.natAbs

/-- Modelled from the spec (section 4.5, read step 2): walk the chain,
skipping `steps v` tail records; if the chain ends first, return the base
values. -/
def versionState (r : VRecord) (v : Int) : Row :=
  (r.tails.drop (steps v)).headD r.base

/-- Dense projection (spec section 6, return shape): keep exactly the values
of the columns whose projection entry is `1`, in column order. -/
def project (proj : List Nat) (vals : Row) : Row :=
  (List.zip proj vals).filterMap (fun pv => if pv.1 = 1 then some pv.2 else none)

/-! ## Engine model: tables and the query surface

Modelled from the spec (sections 4.6, 4.7): the primary index is a unique
map from primary-key value to the record; `select_version` uses the index
when the search column is the primary-key column and otherwise scans,
matching on the most recent version of the search column (the reference
model in `src/tests/correctness.py` matches records by their latest value). -/

/-- Error kinds of the engine (spec section 7). -/
inductive DBError where
  | duplicateKey
  | keyNotFound
  | badArgument
  deriving Repr, DecidableEq

/-- How an engine error surfaces to the Python host (spec section 6:
duplicate-key is a distinct recoverable error; the harness
`src/correctness.py` observes it as a `ValueError`). -/
def DBError.pythonException : DBError → String
  | .duplicateKey => "ValueError"
  | .keyNotFound => "KeyError"
  | .badArgument => "TypeError"

/-- A table: declared column count, primary-key column index, and the live
records keyed by their primary-key value (unique, spec I1). -/
structure MTable where
  numColumns : Nat
  pkIndex : Nat
  rows : List (Int × VRecord)
  deriving Repr, DecidableEq

/-- Primary-index lookup: the record stored under primary-key value `key`. -/
def lookupRow : List (Int × VRecord) → Int → Option VRecord
  | [], _ => none
  | kr :: rest, key => if kr.1 = key then some kr.2 else lookupRow rest key

/-- Modelled from the spec (section 4.7): `select_version` returns the
matching records read at version `v`, each projected densely.  On the
primary-key column it uses the primary index; otherwise it scans, matching
the latest value of the search column. -/
def MTable.select_version (t : MTable) (key : Int) (col : Nat) (proj : List Nat)
    (v : Int) : List Row :=
  if col = t.pkIndex then
    match lookupRow t.rows key with
    | some r => [project proj (versionState r v)]
    | none => []
  else
    (t.rows.filter (fun kr => kr.2.latest.getD col 0 == key)).map
      (fun kr => project proj (versionState kr.2 v))

/-- Modelled from the spec (section 4.7): `select` is a version-0 read. -/
def MTable.select (t : MTable) (key : Int) (col : Nat) (proj : List Nat) : List Row :=
  t.select_version key col proj 0

/-- Modelled from the spec (sections 4.5 and 4.7): `insert` creates a base
record with no tail chain; a duplicate primary key is rejected with
`DuplicateKey` and the table is left unchanged. -/
def MTable.insert (t : MTable) (vals : Row) : Except DBError MTable :=
  match vals.get? t.pkIndex with
  | none => .error .badArgument
  | some key =>
      if (lookupRow t.rows key).isSome then .error .duplicateKey
      else .ok { t with rows := t.rows ++ [(key, ⟨vals, []⟩)] }

/-- Modelled from the spec (section 4.7): `update` rejects a missing primary
key and otherwise appends one tail snapshot built from the mask. -/
def MTable.update (t : MTable) (key : Int) (mask : UpdateMask) : Except DBError MTable :=
  match lookupRow t.rows key with
  | none => .error .keyNotFound
  | some _ =>
      let rows := t.rows.map fun kr =>
        if kr.1 = key then (kr.1, kr.2.update mask) else kr
      .ok { t with rows := rows }

/-- The spec's description of the dense return shape (section 6): the entry
for column `i` is included exactly when `projection[i] = 1`, and entries
appear in ascending column order. -/
def specProjection (proj : List Nat) (vals : Row) : Row :=
  (List.range proj.length).filterMap fun i =>
    if proj.getD i 0 = 1 then vals.get? i else none

/-- A well-formed table: every snapshot of every record has exactly
`numColumns` values. -/
def WFTable (t : MTable) : Prop :=
  ∀ kr ∈ t.rows,
    kr.2.base.length = t.numColumns ∧ ∀ tl ∈ kr.2.tails, tl.length = t.numColumns

/-- Base record of the C1 witness scenario (spec section 8, scenario 2). -/
def c1Base : Row := [90210, 93, 94, 95, 96]

/-- Updates of the C1 witness scenario (spec section 8, scenario 2). -/
def c1Masks : List UpdateMask :=
  [[Option.none, some 100, Option.none, Option.none, Option.none],
   [Option.none, some 101, some 102, Option.none, Option.none]]

/-- Table of the C1 witness scenario: five columns, primary key column 0. -/
def c1Table : MTable := ⟨5, 0, [(90210, recOf c1Base c1Masks)]⟩

/-- Table of the C7 witness (the duplicate-insert check of `src/testM1.py`):
primary key 1 is already present with values `[1, 1, 1, 1, 1]`. -/
def c7Table : MTable := ⟨5, 0, [(1, recOf [1, 1, 1, 1, 1] [])]⟩

/-- Table of the C8 witness: two columns, primary key column 0, one record
updated once. -/
def c8Table : MTable := ⟨2, 0, [(7, recOf [7, 3] [[Option.none, some 4]])]⟩

/-! ## Python host layer

Embedded directly from the Python sources in `src/lstore` and
`src/cowabunga`.  Python attribute state is modelled by structures whose
fields are exactly the attributes the class ever assigns; an attribute a
method reads but no method assigns is carried as an `Option` field that
stays `none`, and reading it raises `AttributeError`, as in Python. -/

/-- A Python exception as the host observes it. -/
inductive PyError where
  | attributeError (attr : String)
  | indexError
  deriving Repr, DecidableEq

/-- A Python value as passed to `Transaction.add_query`: an integer, `None`
(the "keep" marker of update masks), or a list of integers (a projection). -/
inductive PyVal where
  | pyint (i : Int)
  | pynone
  | pylist (l : List Int)
  deriving Repr, DecidableEq

/-- A deferred operation enqueued on the Rust-side transaction object, one
constructor per `transaction_module.Transaction.add_*` call made by
`Transaction.add_query` (src/lstore/transaction.py). -/
inductive TxnOp where
  | add_insert (tableId pkIndex : Nat) (vals : List PyVal)
  | add_update (tableId pkIndex : Nat) (key : PyVal) (mask : List PyVal)
  | add_select (tableId pkIndex : Nat) (key col proj : PyVal)
  | add_sum (tableId pkIndex : Nat) (lo hi col : PyVal)
  | add_select_version (tableId pkIndex : Nat) (key col proj ver : PyVal)
  | add_sum_version (tableId pkIndex : Nat) (lo hi col ver : PyVal)
  | add_delete (tableId pkIndex : Nat) (key : PyVal)
  deriving Repr, DecidableEq

/-- `lstore.transaction.Transaction`: the Rust-side operation queue plus the
`queries` attribute, whose initialising assignment is commented out in
`__init__` (src/lstore/transaction.py line 12), so it is never assigned. -/
structure LTransaction where
  transaction : List TxnOp
  queries : Option (List Bool)
  deriving Repr, DecidableEq

/-- `Transaction.__init__`: an empty Rust transaction; `queries` is never
assigned. -/
def mkTransaction : LTransaction := ⟨[], Option.none⟩

/-- Python indexing `args[i]`: `IndexError` when out of range. -/
def pyGet (args : List PyVal) (i : Nat) : Except PyError PyVal :=
  match args.get? i with
  | some v => .ok v
  | none => .error .indexError

/-- Python `args[2:-1][0]`: the first element of the slice from index 2 up
to (excluding) the last element; `IndexError` when that slice is empty. -/
def pyMiddle (args : List PyVal) : Except PyError PyVal :=
  match ((args.drop 2).dropLast).get? 0 with
  | some v => .ok v
  | none => .error .indexError

/-- Python `args[-1]`: the last element; `IndexError` on an empty list. -/
def pyLast (args : List PyVal) : Except PyError PyVal :=
  match args.getLast? with
  | some v => .ok v
  | none => .error .indexError

/-- `Transaction.add_query` (src/lstore/transaction.py lines 23-40): dispatch
on `query.__name__` — note the misspelled string `"sum_verstion"` in the
source, kept verbatim here — enqueueing one Rust-side operation; a name
matching no branch falls through and enqueues nothing. -/
def LTransaction.add_query (t : LTransaction) (queryName : String)
    (tableId pkIndex : Nat) (args : List PyVal) : Except PyError LTransaction :=
  if queryName = "insert" then
    .ok { t with transaction := t.transaction ++ [.add_insert tableId pkIndex args] }
  else if queryName = "update" then do
    let key ← pyGet args 0
    .ok { t with transaction :=
      t.transaction ++ [.add_update tableId pkIndex key (args.drop 1)] }
  else if queryName = "select" then do
    let a0 ← pyGet args 0
    let a1 ← pyGet args 1
    let proj ← pyGet args 2
    .ok { t with transaction :=
      t.transaction ++ [.add_select tableId pkIndex a0 a1 proj] }
  else if queryName = "sum" then do
    let a0 ← pyGet args 0
    let a1 ← pyGet args 1
    let a2 ← pyGet args 2
    .ok { t with transaction :=
      t.transaction ++ [.add_sum tableId pkIndex a0 a1 a2] }
  else if queryName = "select_version" then do
    let a0 ← pyGet args 0
    let a1 ← pyGet args 1
    let proj ← pyMiddle args
    let ver ← pyLast args
    .ok { t with transaction :=
      t.transaction ++ [.add_select_version tableId pkIndex a0 a1 proj ver] }
  else if queryName = "sum_verstion" then do
    let a0 ← pyGet args 0
    let a1 ← pyGet args 1
    let a2 ← pyGet args 2
    let a3 ← pyGet args 3
    .ok { t with transaction :=
      t.transaction ++ [.add_sum_version tableId pkIndex a0 a1 a2 a3] }
  else if queryName = "delete" then do
    let a0 ← pyGet args 0
    .ok { t with transaction := t.transaction ++ [.add_delete tableId pkIndex a0] }
  else
    .ok t

/-- `Transaction.abort` (src/lstore/transaction.py): marked TODO in the
source — it performs no rollback and just returns `False`. -/
def LTransaction.abort (_ : LTransaction) : Bool := false

/-- `Transaction.commit` (src/lstore/transaction.py): marked TODO in the
source — it returns `True`. -/
def LTransaction.commit (_ : LTransaction) : Bool := true

/-- `Transaction.run` (src/lstore/transaction.py lines 43-49): iterates
`self.queries` — reading the attribute raises `AttributeError` when it was
never assigned; otherwise aborts on the first falsy result, else commits.
The per-call results are modelled as the booleans the queued callables
would return. -/
def LTransaction.run (t : LTransaction) : Except PyError Bool :=
  match t.queries with
  | Option.none => .error (.attributeError "queries")
  | some results =>
      if results.contains false then .ok t.abort else .ok t.commit

/-- `lstore.transaction_worker.TransactionWorker`: the attributes assigned
in `__init__` (src/lstore/transaction_worker.py lines 11-18).  The
`query_count` attribute its `run` reads from each transaction is modelled on
`LTransactionWorker.run` directly, since `Transaction` never assigns it. -/
structure LTransactionWorker where
  stats : List Bool
  transactions : List LTransaction
  result : Nat
  db : Nat
  worker_id : Nat
  deriving Repr, DecidableEq

/-- `TransactionWorker.__init__(db, transactions)`. -/
def mkWorker (db : Nat) (transactions : List LTransaction) : LTransactionWorker :=
  ⟨[], transactions, 0, db, 0⟩

/-- `TransactionWorker.add_transaction`. -/
def LTransactionWorker.add_transaction (w : LTransactionWorker)
    (t : LTransaction) : LTransactionWorker :=
  { w with transactions := w.transactions ++ [t] }

/-- `TransactionWorker.run` (src/lstore/transaction_worker.py lines 32-41):
sums `transact.query_count` over the transactions — an attribute the Python
`Transaction` class never assigns, so the read raises `AttributeError`
unless the list is empty — then hands the Rust-side transactions to
`db.db.run_worker`, storing the returned worker id.  In neither outcome are
`stats` or `result` written. -/
def LTransactionWorker.run (w : LTransactionWorker) (freshId : Nat) :
    Except PyError Unit × LTransactionWorker :=
  if w.transactions.isEmpty then (.ok (), { w with worker_id := freshId })
  else (.error (.attributeError "query_count"), w)

/-- `TransactionWorker.join`: blocks on `db.db.join_worker(worker_id)`; no
attribute of the worker is written. -/
def LTransactionWorker.join (w : LTransactionWorker) : LTransactionWorker := w

/-- `TransactionWorker.__run` (src/lstore/transaction_worker.py lines
49-54): the only code that writes `stats` and `result`; no method of the
class ever calls it.  `outcomes` are the per-transaction commit results. -/
def LTransactionWorker.runPrivate (w : LTransactionWorker)
    (outcomes : List Bool) : LTransactionWorker :=
  { w with stats := outcomes, result := (outcomes.filter (fun b => b)).length }

/-- External state visible to the database layer: raw file paths, plus the
spec-level persistence state (persisted table names, dirty buffer-pool
frames, running merge threads, running transaction workers). -/
structure World where
  files : List (List String)
  persistedTables : List String
  dirtyFrames : List Nat
  mergeThreads : List String
  workers : List Nat
  deriving Repr, DecidableEq

/-- Whether a path (a list of components relative to the working directory)
lies in the `./COWDAT` tree that `lstore.db.Database.__init__` removes. -/
def underCOWDAT (p : List String) : Bool :=
  p.headD "" = "COWDAT"

/-- `shutil.rmtree("./COWDAT")` wrapped in `try/except: pass`
(src/lstore/db.py lines 10-13): removes every path under `./COWDAT`,
silently doing nothing when the tree is absent. -/
def rmtreeCOWDAT (w : World) : World :=
  { w with files := w.files.filter (fun f => !underCOWDAT f) }

/-- Modelled from the spec: `table_module.Table.persist` lives in the Rust
extension `cowabunga_rs`, not in `src/`; per spec sections 4.4 and 6 it
writes the table's metadata header and page directory to disk. -/
def persistTable (w : World) (name : String) : World :=
  if w.persistedTables.contains name then w
  else { w with persistedTables := w.persistedTables ++ [name] }

/-- Modelled from the spec: `table_module.persist_bpm` lives in the Rust
extension `cowabunga_rs`, not in `src/`; per spec section 4.3 it writes all
dirty buffer-pool frames (`flush_all`). -/
def persist_bpm (w : World) : World :=
  { w with dirtyFrames := [] }

/-- `lstore.db.Database`: the attributes assigned by `__init__`
(src/lstore/db.py lines 4-15).  `bpm` is read by `get_table` but assigned by
no method of the class, so it is carried as an always-`none` option. -/
structure LDatabase where
  directory : Option String
  tables : List String
  loaded : Bool
  bpm : Option Nat
  deriving Repr, DecidableEq

/-- `lstore.db.Database.open(path)` (src/lstore/db.py lines 18-19): records
the path; nothing else happens. -/
def LDatabase.openPath (db : LDatabase) (path : String) (w : World) :
    LDatabase × World :=
  ({ db with directory := some path }, w)

/-- `lstore.db.Database.__init__` (src/lstore/db.py lines 5-15): initialises
the attributes, removes `./COWDAT` ignoring failures, then calls
`self.open("COWDAT")`. -/
def LDatabase.init (w : World) : LDatabase × World :=
  LDatabase.openPath ⟨Option.none, [], false, Option.none⟩ "COWDAT" (rmtreeCOWDAT w)

/-- `lstore.db.Database.create_table` (src/lstore/db.py lines 33-41):
constructs a Rust table (which is opaque here and returned by name), sets
`loaded`, and appends the table to `self.tables`. -/
def LDatabase.create_table (db : LDatabase) (name : String)
    (_numColumns _keyIndex : Nat) : LDatabase × String :=
  ({ db with tables := db.tables ++ [name], loaded := true }, name)

/-- `lstore.db.Database.close` (src/lstore/db.py lines 21-25): calls
`table.persist()` on each table in `self.tables`, then
`table_module.persist_bpm()`.  No other call is made. -/
def LDatabase.close (db : LDatabase) (w : World) : World :=
  persist_bpm (db.tables.foldl persistTable w)

/-- `lstore.db.Database.get_table` (src/lstore/db.py lines 52-56): reads
`self.bpm` — which no method ever assigns, so the read raises
`AttributeError` — then would construct a table, start its merge thread and
append it to `self.tables`. -/
def LDatabase.get_table (db : LDatabase) (name : String) (w : World) :
    Except PyError (LDatabase × String × World) :=
  match db.bpm with
  | Option.none => .error (.attributeError "bpm")
  | some _ =>
      .ok ({ db with tables := db.tables ++ [name] }, name,
        { w with mergeThreads := w.mergeThreads ++ [name] })

/-- `cowabunga.db.Database`: `__init__` assigns `tables = []` and a fresh
buffer pool (src/cowabunga/db.py lines 4-6). -/
structure CDatabase where
  tables : List String
  bpm : Nat
  deriving Repr, DecidableEq

/-- `cowabunga.db.Database.__init__`. -/
def mkCDatabase : CDatabase := ⟨[], 0⟩

/-- `cowabunga.db.Database.open(path)` (src/cowabunga/db.py lines 9-10): the
body is `pass`. -/
def CDatabase.openPath (db : CDatabase) (_path : String) (w : World) :
    CDatabase × World :=
  (db, w)

/-- `cowabunga.db.Database.close` (src/cowabunga/db.py lines 12-13): the
body is `pass`; nothing is flushed, persisted, stopped or joined. -/
def CDatabase.close (_db : CDatabase) (w : World) : World := w

/-- `cowabunga.db.Database.create_table` (src/cowabunga/db.py lines 21-23):
constructs and returns a Rust table; it does not register it in
`self.tables`. -/
def CDatabase.create_table (db : CDatabase) (name : String)
    (_numColumns _keyIndex : Nat) : CDatabase × String :=
  (db, name)

/-- `cowabunga.db.Database.get_table` (src/cowabunga/db.py lines 35-36): the
body is `pass`, so the call returns `None`. -/
def CDatabase.get_table (_db : CDatabase) (_name : String) : Option String :=
  Option.none

/-- World of the C2 scenario (`durability_tester2` in src/testerM2.py): a
database directory `./M2` with a persisted `Grades` table. -/
def c2World : World :=
  ⟨[["M2", "tables", "Grades", "meta"]], ["Grades"], [], [], []⟩

/-- World of the C5 counterexample: one dirty buffer-pool frame, a running
merge thread and a running transaction worker. -/
def c5World : World :=
  ⟨[], [], [7], ["Grades"], [3]⟩

/-- World of the C6 counterexample: a `Grades` table persisted under
`./M2`. -/
def c6World : World :=
  ⟨[["M2", "tables", "Grades", "meta"]], ["Grades"], [], [], []⟩

/-- World of the C9 witness: files inside and outside `./COWDAT`. -/
def c9World : World :=
  ⟨[["COWDAT", "tables", "Grades", "meta"], ["M2", "tables", "Grades", "meta"]],
    [], [], [], []⟩

/-! ## Theorems -/

/-- Folding updates never changes the base snapshot. -/
theorem base_foldl_update (masks : List UpdateMask) (r : VRecord) :
    (masks.foldl VRecord.update r).base = r.base := by
  induction masks generalizing r with
  | nil => rfl
  | cons m ms ih => simpa [List.foldl_cons] using ih (r.update m)

/-- The base of `recOf base masks` is `base`. -/
theorem base_recOf (base : Row) (masks : List UpdateMask) :
    (recOf base masks).base = base :=
  base_foldl_update masks _

/-- The latest snapshot after folding updates is the fold of `applyUpdate`
over the latest snapshot. -/
theorem latest_foldl_update (masks : List UpdateMask) (r : VRecord) :
    (masks.foldl VRecord.update r).latest = masks.foldl applyUpdate r.latest := by
  induction masks generalizing r with
  | nil => rfl
  | cons m ms ih =>
      have hstep : (r.update m).latest = applyUpdate r.latest m := rfl
      simpa [List.foldl_cons, hstep] using ih (r.update m)

/-- The latest snapshot of `recOf base masks` is the state after all updates. -/
theorem latest_recOf (base : Row) (masks : List UpdateMask) :
    (recOf base masks).latest = stateAfter base masks masks.length := by
  have h := latest_foldl_update masks ⟨base, []⟩
  have hl : (VRecord.mk base []).latest = base := rfl
  rw [recOf, h, hl, stateAfter, List.take_length]

/-- Key chain lemma: skipping `j` tail records of `recOf base masks` lands on
the state after the first `masks.length - j` updates (saturating at the
base record). -/
theorem chain_drop_recOf (base : Row) (masks : List UpdateMask) (j : Nat) :
    ((recOf base masks).tails.drop j).headD base
      = stateAfter base masks (masks.length - j) := by
  induction masks using List.reverseRecOn generalizing j with
  | nil =>
      simp [recOf, stateAfter]
  | append_singleton ms m ih =>
      have hrec : recOf base (ms ++ [m]) = (recOf base ms).update m := by
        rw [recOf, List.foldl_append]; rfl
      have htails : (recOf base (ms ++ [m])).tails
          = applyUpdate (recOf base ms).latest m :: (recOf base ms).tails := by
        rw [hrec]; rfl
      cases j with
      | zero =>
          rw [htails]
          have hfull : stateAfter base (ms ++ [m]) ((ms ++ [m]).length - 0)
              = applyUpdate (stateAfter base ms ms.length) m := by
            rw [Nat.sub_zero, stateAfter, List.take_length, List.foldl_append,
              stateAfter, List.take_length]
            rfl
          rw [hfull, latest_recOf]
          rfl
      | succ j' =>
          rw [htails]
          have hdrop : ((applyUpdate (recOf base ms).latest m :: (recOf base ms).tails).drop
              (j' + 1)) = (recOf base ms).tails.drop j' := rfl
          rw [hdrop, ih j']
          have hlen : (ms ++ [m]).length = ms.length + 1 := by
            simp
          have hle : ms.length - j' ≤ ms.length := Nat.sub_le _ _
          rw [stateAfter, stateAfter, hlen]
          have hidx : ms.length + 1 - (j' + 1) = ms.length - j' := by omega
          rw [hidx, List.take_append_of_le_length hle]

/-- Reading `recOf base masks` at version `v` yields the state after
`masks.length - steps v` updates. -/
theorem versionState_recOf (base : Row) (masks : List UpdateMask) (v : Int) :
    versionState (recOf base masks) v
      = stateAfter base masks (masks.length - steps v) := by
  have hb : (recOf base masks).base = base := base_recOf base masks
  rw [versionState, hb, chain_drop_recOf]

/-- When the version argument is nonpositive, the chain walk skips exactly
`|v|` tail records. -/
theorem steps_of_nonpos (v : Int) (hv : v ≤ 0) : steps v = v.natAbs := by
  unfold steps
  rw [if_neg (by omega)]

/-- When the version argument is positive, the chain walk skips nothing. -/
theorem steps_of_pos (v : Int) (hv : 0 < v) : steps v = 0 := by
  unfold steps
  rw [if_pos hv]

/-- C1: for a record with primary key `k` that has received the updates
`masks`, and any version argument `v ≤ 0`, `select_version` on the
primary-key column returns exactly one record, whose included columns are
the state after rewinding `min |v| masks.length` updates from the latest
version (saturating at the base record); a version argument `v > 0` is
treated as `0`. -/
theorem select_version_rewinds_min (t : MTable) (k : Int) (proj : List Nat)
    (base : Row) (masks : List UpdateMask) (v : Int)
    (hrec : lookupRow t.rows k = some (recOf base masks)) :
    (v ≤ 0 → t.select_version k t.pkIndex proj v
        = [project proj
            (stateAfter base masks (masks.length - min v.natAbs masks.length))])
    ∧ (0 < v → t.select_version k t.pkIndex proj v
        = t.select_version k t.pkIndex proj 0) := by
  constructor
  · intro hv
    simp only [MTable.select_version, if_pos rfl, hrec]
    rw [versionState_recOf, steps_of_nonpos v hv]
    have hmin : masks.length - v.natAbs = masks.length - min v.natAbs masks.length := by
      omega
    rw [hmin]
    simp
  · intro hv
    simp only [MTable.select_version, if_pos rfl, hrec]
    rw [versionState_recOf, versionState_recOf, steps_of_pos v hv]
    have hsteps : steps 0 = 0 := rfl
    rw [hsteps]
    simp

/-- Witness for C1 at spec scenario 2: after two updates,
`select_version(90210, 0, [0,1,1,0,0], -1)` returns `[[100, 94]]`. -/
theorem select_version_rewinds_min_witness :
    c1Table.select_version 90210 c1Table.pkIndex [0, 1, 1, 0, 0] (-1)
      = [[100, 94]] := by
  have h := (select_version_rewinds_min c1Table 90210 [0, 1, 1, 0, 0]
    c1Base c1Masks (-1) (by decide)).1 (by decide)
  rw [h]
  decide

/-- Version 0 of a record is its latest snapshot. -/
theorem versionState_zero (r : VRecord) : versionState r 0 = r.latest := rfl

/-- C7: inserting a record whose primary key `k` is already present fails
with the distinct recoverable duplicate-key error (surfaced to the host as
`ValueError`) and leaves the stored record unchanged, so a subsequent select
on `k` still returns the prior values. -/
theorem insert_duplicate_rejected (t : MTable) (vals : Row) (k : Int)
    (r : VRecord) (proj : List Nat)
    (hk : vals.get? t.pkIndex = some k) (hr : lookupRow t.rows k = some r) :
    t.insert vals = Except.error DBError.duplicateKey
    ∧ DBError.duplicateKey.pythonException = "ValueError"
    ∧ t.select k t.pkIndex proj = [project proj r.latest] := by
  refine ⟨?_, rfl, ?_⟩
  · rw [MTable.insert, hk]
    simp [hr]
  · simp [MTable.select, MTable.select_version, hr, versionState_zero]

/-- Witness for C7: inserting `[1, 2, 2, 2, 2]` into `c7Table` is rejected
with the duplicate-key error and the prior record is still selected. -/
theorem insert_duplicate_rejected_witness :
    c7Table.insert [1, 2, 2, 2, 2] = Except.error DBError.duplicateKey
    ∧ DBError.duplicateKey.pythonException = "ValueError"
    ∧ c7Table.select 1 c7Table.pkIndex [1, 1, 1, 1, 1] = [[1, 1, 1, 1, 1]] := by
  have h := insert_duplicate_rejected c7Table [1, 2, 2, 2, 2] 1
    (recOf [1, 1, 1, 1, 1] []) [1, 1, 1, 1, 1] (by decide) (by decide)
  refine ⟨h.1, h.2.1, ?_⟩
  rw [h.2.2]
  decide

/-- One step of `project`. -/
theorem project_cons (p : Nat) (ps : List Nat) (v : Int) (vs : Row) :
    project (p :: ps) (v :: vs)
      = (if p = 1 then [v] else []) ++ project ps vs := by
  by_cases hp : p = 1 <;> simp [project, List.filterMap_cons, hp]

/-- One step of `specProjection`. -/
theorem specProjection_cons (p : Nat) (ps : List Nat) (v : Int) (vs : Row) :
    specProjection (p :: ps) (v :: vs)
      = (if p = 1 then [v] else []) ++ specProjection ps vs := by
  by_cases hp : p = 1 <;>
    simp [specProjection, List.range_succ_eq_map, List.filterMap_cons,
      List.filterMap_map, Function.comp_def, hp]

/-- `project` implements the spec's dense return shape. -/
theorem project_eq_specProjection (proj : List Nat) (vals : Row)
    (h : vals.length = proj.length) :
    project proj vals = specProjection proj vals := by
  induction proj generalizing vals with
  | nil =>
      cases vals with
      | nil => rfl
      | cons v vs => simp at h
  | cons p ps ih =>
      cases vals with
      | nil => simp at h
      | cons v vs =>
          have hlen : vs.length = ps.length := by simpa using h
          rw [project_cons, specProjection_cons, ih vs hlen]

/-- The dense result has one entry per `1` in the projection. -/
theorem project_length (proj : List Nat) (vals : Row)
    (h : vals.length = proj.length) :
    (project proj vals).length = proj.count 1 := by
  induction proj generalizing vals with
  | nil =>
      cases vals with
      | nil => rfl
      | cons v vs => simp at h
  | cons p ps ih =>
      cases vals with
      | nil => simp at h
      | cons v vs =>
          have hlen : vs.length = ps.length := by simpa using h
          rw [project_cons]
          by_cases hp : p = 1 <;> simp [hp, List.count_cons, ih vs hlen]

/-- The head of a dropped list is the default or a member of the list. -/
theorem headD_drop_mem (l : List Row) (n : Nat) (d : Row) :
    (l.drop n).headD d = d ∨ (l.drop n).headD d ∈ l := by
  cases hd : l.drop n with
  | nil => exact Or.inl rfl
  | cons x xs =>
      refine Or.inr ?_
      have hmem : x ∈ l.drop n := by rw [hd]; exact List.mem_cons_self x xs
      simpa using List.mem_of_mem_drop hmem

/-- Any version of a well-formed record has `numColumns` values. -/
theorem versionState_length (t : MTable) (r : VRecord) (v : Int)
    (hb : r.base.length = t.numColumns)
    (ht : ∀ tl ∈ r.tails, tl.length = t.numColumns) :
    (versionState r v).length = t.numColumns := by
  rcases headD_drop_mem r.tails (steps v) r.base with h | h
  · rw [versionState, h]; exact hb
  · exact ht _ h

/-- A successful primary-index lookup returns a stored record. -/
theorem lookupRow_mem (rows : List (Int × VRecord)) (k : Int) (r : VRecord)
    (h : lookupRow rows k = some r) : ∃ kr ∈ rows, kr.2 = r := by
  induction rows with
  | nil => simp [lookupRow] at h
  | cons kr rest ih =>
      rw [lookupRow] at h
      by_cases hk : kr.1 = k
      · rw [if_pos hk] at h
        exact ⟨kr, List.mem_cons_self _ _, Option.some.inj h⟩
      · rw [if_neg hk] at h
        obtain ⟨kr', hmem, hr⟩ := ih h
        exact ⟨kr', List.mem_cons_of_mem _ hmem, hr⟩

/-- C8: every result record of `select` or `select_version` on a well-formed
table is in the dense form: its length is the number of `1`s in the
projection and its entries are exactly the projected columns' values in
ascending column order (`specProjection`). -/
theorem select_results_dense (t : MTable) (key : Int) (col : Nat)
    (proj : List Nat) (v : Int)
    (hwf : WFTable t) (hproj : proj.length = t.numColumns) :
    ∀ cols ∈ t.select_version key col proj v,
      cols.length = proj.count 1
      ∧ ∃ vals : Row, vals.length = proj.length
          ∧ cols = project proj vals ∧ cols = specProjection proj vals := by
  have hrow : ∀ r : VRecord, (∃ kr ∈ t.rows, kr.2 = r) →
      (project proj (versionState r v)).length = proj.count 1
      ∧ (versionState r v).length = proj.length
      ∧ project proj (versionState r v) = specProjection proj (versionState r v) := by
    intro r hr
    obtain ⟨kr, hmem, hkr⟩ := hr
    obtain ⟨hb, ht⟩ := hwf kr hmem
    have hlen : (versionState r v).length = proj.length := by
      rw [hproj]
      exact versionState_length t r v (hkr ▸ hb) (hkr ▸ ht)
    exact ⟨project_length proj _ hlen, hlen, project_eq_specProjection proj _ hlen⟩
  intro cols hmem
  rw [MTable.select_version] at hmem
  by_cases hcol : col = t.pkIndex
  · rw [if_pos hcol] at hmem
    cases hlk : lookupRow t.rows key with
    | none => rw [hlk] at hmem; simp at hmem
    | some r =>
        rw [hlk] at hmem
        have hcols : cols = project proj (versionState r v) := by
          simpa using hmem
        obtain ⟨h1, h2, h3⟩ := hrow r (lookupRow_mem t.rows key r hlk)
        exact ⟨hcols ▸ h1, versionState r v, h2, hcols ▸ rfl, hcols ▸ h3⟩
  · rw [if_neg hcol] at hmem
    obtain ⟨kr, hkrmem, hcols⟩ := List.mem_map.mp hmem
    have hkrrows : kr ∈ t.rows := List.mem_of_mem_filter hkrmem
    obtain ⟨h1, h2, h3⟩ := hrow kr.2 ⟨kr, hkrrows, rfl⟩
    exact ⟨hcols ▸ h1, versionState kr.2 v, h2, hcols ▸ rfl, hcols ▸ h3⟩

/-- Witness for C8: the single result of `select(7, 0, [0, 1])` on `c8Table`
has one entry (the projection has one `1`) equal to the current value of
column 1. -/
theorem select_results_dense_witness :
    c8Table.select_version 7 0 [0, 1] 0 = [[4]]
    ∧ ([4] : Row).length = List.count 1 [0, 1]
    ∧ ∃ vals : Row, vals.length = 2
        ∧ ([4] : Row) = project [0, 1] vals
        ∧ ([4] : Row) = specProjection [0, 1] vals := by
  have hsel : c8Table.select_version 7 0 [0, 1] 0 = [[4]] := by decide
  have h := select_results_dense c8Table 7 0 [0, 1] 0
    (by unfold WFTable; decide) (by decide)
    [4] (by rw [hsel]; exact List.mem_cons_self _ _)
  exact ⟨hsel, h.1, h.2⟩

/-- `persistTable` only touches `persistedTables`. -/
theorem persistTable_frame (w : World) (n : String) :
    (persistTable w n).files = w.files
    ∧ (persistTable w n).dirtyFrames = w.dirtyFrames
    ∧ (persistTable w n).mergeThreads = w.mergeThreads
    ∧ (persistTable w n).workers = w.workers := by
  by_cases h : n ∈ w.persistedTables <;> simp [persistTable, h]

/-- Folding `persistTable` only touches `persistedTables`. -/
theorem foldl_persistTable_frame (l : List String) (w : World) :
    (l.foldl persistTable w).files = w.files
    ∧ (l.foldl persistTable w).dirtyFrames = w.dirtyFrames
    ∧ (l.foldl persistTable w).mergeThreads = w.mergeThreads
    ∧ (l.foldl persistTable w).workers = w.workers := by
  induction l generalizing w with
  | nil => exact ⟨rfl, rfl, rfl, rfl⟩
  | cons n rest ih =>
      obtain ⟨h1, h2, h3, h4⟩ := ih (persistTable w n)
      obtain ⟨g1, g2, g3, g4⟩ := persistTable_frame w n
      exact ⟨h1.trans g1, h2.trans g2, h3.trans g3, h4.trans g4⟩

/-- `persistTable` records its table and keeps every previously recorded
one. -/
theorem persistTable_mem (w : World) (n m : String) :
    (m = n ∨ m ∈ w.persistedTables) → m ∈ (persistTable w n).persistedTables := by
  intro hm
  by_cases h : n ∈ w.persistedTables <;> rcases hm with hm | hm <;>
    simp [persistTable, h, hm]

/-- After folding `persistTable` over a list of tables, every table of the
list (and every previously persisted one) is recorded as persisted. -/
theorem foldl_persistTable_mem (l : List String) (w : World) (m : String) :
    (m ∈ l ∨ m ∈ w.persistedTables) →
      m ∈ (l.foldl persistTable w).persistedTables := by
  induction l generalizing w with
  | nil =>
      intro hm
      rcases hm with hm | hm
      · simp at hm
      · simpa using hm
  | cons n rest ih =>
      intro hm
      rw [List.foldl_cons]
      refine ih (persistTable w n) ?_
      rcases hm with hm | hm
      · rcases List.mem_cons.mp hm with hm | hm
        · exact Or.inr (persistTable_mem w n m (Or.inl hm))
        · exact Or.inl hm
      · exact Or.inr (persistTable_mem w n m (Or.inr hm))

/-- C5 (amended): `lstore`'s `close()` persists the header and page
directory of every table created in the database and flushes all dirty
buffer-pool frames; it makes no other call — in particular it does not stop
merge threads or join transaction workers, which remain untouched. -/
theorem lstore_close_persists (db : LDatabase) (w : World) :
    (∀ name ∈ db.tables, name ∈ (db.close w).persistedTables)
    ∧ (db.close w).dirtyFrames = []
    ∧ (db.close w).mergeThreads = w.mergeThreads
    ∧ (db.close w).workers = w.workers
    ∧ (db.close w).files = w.files := by
  unfold LDatabase.close
  obtain ⟨h1, _, h3, h4⟩ := foldl_persistTable_frame db.tables w
  refine ⟨?_, rfl, ?_, ?_, ?_⟩
  · intro name hname
    exact foldl_persistTable_mem db.tables w name (Or.inl hname)
  · simpa [persist_bpm] using h3
  · simpa [persist_bpm] using h4
  · simpa [persist_bpm] using h1

/-- Witness for C5 (amended) on a database with tables `Grades` and
`Students` and a dirty frame: after `close`, both tables are persisted and
no dirty frame remains. -/
theorem lstore_close_persists_witness :
    "Grades" ∈ (LDatabase.close ⟨some "./DB", ["Grades", "Students"], true,
        Option.none⟩ c5World).persistedTables
    ∧ (LDatabase.close ⟨some "./DB", ["Grades", "Students"], true,
        Option.none⟩ c5World).dirtyFrames = [] := by
  have h := lstore_close_persists
    ⟨some "./DB", ["Grades", "Students"], true, Option.none⟩ c5World
  exact ⟨h.1 "Grades" (by decide), h.2.1⟩

/-- C5 counterexample: `cowabunga`'s `close()` is a no-op — with a dirty
buffer-pool frame, a created table, a running merge thread and a running
worker, `close` flushes nothing, persists nothing, stops nothing and joins
nothing. -/
theorem cowabunga_close_noop :
    (CDatabase.close (CDatabase.create_table mkCDatabase "Grades" 5 0).1
        c5World).dirtyFrames = [7]
    ∧ (CDatabase.close (CDatabase.create_table mkCDatabase "Grades" 5 0).1
        c5World).persistedTables = []
    ∧ (CDatabase.close (CDatabase.create_table mkCDatabase "Grades" 5 0).1
        c5World).mergeThreads = ["Grades"]
    ∧ (CDatabase.close (CDatabase.create_table mkCDatabase "Grades" 5 0).1
        c5World).workers = [3] :=
  ⟨rfl, rfl, rfl, rfl⟩

/-- C6 (amended): `open(p)` only records `p` as the database's directory in
the `lstore` class and does nothing at all in the `cowabunga` class; it
neither creates nor loads the directory, constructs no buffer pool, and
loads no table headers. -/
theorem open_records_path_only (db : LDatabase) (cdb : CDatabase) (p : String)
    (w : World) :
    (db.openPath p w).1.directory = some p
    ∧ (db.openPath p w).1.tables = db.tables
    ∧ (db.openPath p w).1.loaded = db.loaded
    ∧ (db.openPath p w).1.bpm = db.bpm
    ∧ (db.openPath p w).2 = w
    ∧ cdb.openPath p w = (cdb, w) :=
  ⟨rfl, rfl, rfl, rfl, rfl, rfl⟩

/-- C6 counterexample: with a `Grades` table persisted under `./M2`,
`Database(); db.open("./M2")` leaves the table list empty (no metadata
header is loaded), constructs no buffer pool (`bpm` is still unassigned)
and performs no filesystem action. -/
theorem open_loads_nothing :
    (((LDatabase.init c6World).1.openPath "./M2" (LDatabase.init c6World).2).1).tables = []
    ∧ (((LDatabase.init c6World).1.openPath "./M2"
        (LDatabase.init c6World).2).1).bpm = Option.none
    ∧ (((LDatabase.init c6World).1.openPath "./M2"
        (LDatabase.init c6World).2).2) = (LDatabase.init c6World).2
    ∧ (LDatabase.init c6World).2.persistedTables = ["Grades"] :=
  ⟨rfl, rfl, rfl, rfl⟩

/-- C2: `lstore.db.Database.get_table` reads `self.bpm`, an attribute no
method of the class ever assigns; on the reopen path of
`src/testerM2.py` (`Database()`, `open('./M2')`, `get_table('Grades')`) the
call raises `AttributeError` instead of returning the table. -/
theorem get_table_raises_attribute_error :
    (∀ w : World, ((LDatabase.init w).1).bpm = Option.none)
    ∧ LDatabase.get_table
        ((LDatabase.init c2World).1.openPath "./M2" (LDatabase.init c2World).2).1
        "Grades"
        ((LDatabase.init c2World).1.openPath "./M2" (LDatabase.init c2World).2).2
      = Except.error (PyError.attributeError "bpm") :=
  ⟨fun _ => rfl, rfl⟩

/-- C3: `Transaction.run` iterates `self.queries`, whose initialising
assignment is commented out and which no method assigns, so `run()` raises
`AttributeError` (and `abort` performs no rollback); here evaluated on a
transaction that enqueued one insert. -/
theorem transaction_run_raises_attribute_error :
    (mkTransaction.add_query "insert" 1 0
        [PyVal.pyint 1, PyVal.pyint 2, PyVal.pyint 3, PyVal.pyint 4, PyVal.pyint 5]).bind
      LTransaction.run
      = Except.error (PyError.attributeError "queries")
    ∧ mkTransaction.queries = Option.none
    ∧ LTransaction.abort mkTransaction = false :=
  ⟨rfl, rfl, rfl⟩

/-- C4: `add_query` dispatches on `query.__name__`, but the branch for the
version-aware sum checks the misspelled string `"sum_verstion"`; the call
made by `src/transact_tester.py` line 28, whose query is named
`sum_version`, matches no branch and enqueues nothing, while the other six
operations (and the misspelled name) each enqueue exactly one operation. -/
theorem add_query_drops_sum_version :
    mkTransaction.add_query "sum_version" 1 0
        [PyVal.pyint 0, PyVal.pyint 10, PyVal.pyint 2, PyVal.pyint (-10)]
      = Except.ok mkTransaction
    ∧ mkTransaction.add_query "sum_verstion" 1 0
        [PyVal.pyint 0, PyVal.pyint 10, PyVal.pyint 2, PyVal.pyint (-10)]
      = Except.ok ⟨[TxnOp.add_sum_version 1 0 (PyVal.pyint 0) (PyVal.pyint 10)
          (PyVal.pyint 2) (PyVal.pyint (-10))], Option.none⟩
    ∧ mkTransaction.add_query "insert" 1 0 [PyVal.pyint 1, PyVal.pyint 2]
      = Except.ok ⟨[TxnOp.add_insert 1 0 [PyVal.pyint 1, PyVal.pyint 2]], Option.none⟩
    ∧ mkTransaction.add_query "update" 1 0 [PyVal.pyint 1, PyVal.pynone, PyVal.pyint 3]
      = Except.ok ⟨[TxnOp.add_update 1 0 (PyVal.pyint 1) [PyVal.pynone, PyVal.pyint 3]],
          Option.none⟩
    ∧ mkTransaction.add_query "select" 1 0
        [PyVal.pyint 0, PyVal.pyint 0, PyVal.pylist [1, 0, 1]]
      = Except.ok ⟨[TxnOp.add_select 1 0 (PyVal.pyint 0) (PyVal.pyint 0)
          (PyVal.pylist [1, 0, 1])], Option.none⟩
    ∧ mkTransaction.add_query "sum" 1 0 [PyVal.pyint 0, PyVal.pyint 10, PyVal.pyint 2]
      = Except.ok ⟨[TxnOp.add_sum 1 0 (PyVal.pyint 0) (PyVal.pyint 10) (PyVal.pyint 2)],
          Option.none⟩
    ∧ mkTransaction.add_query "select_version" 1 0
        [PyVal.pyint 0, PyVal.pyint 0, PyVal.pylist [1, 0, 1], PyVal.pyint (-5)]
      = Except.ok ⟨[TxnOp.add_select_version 1 0 (PyVal.pyint 0) (PyVal.pyint 0)
          (PyVal.pylist [1, 0, 1]) (PyVal.pyint (-5))], Option.none⟩
    ∧ mkTransaction.add_query "delete" 1 0 [PyVal.pyint 2]
      = Except.ok ⟨[TxnOp.add_delete 1 0 (PyVal.pyint 2)], Option.none⟩ := by
  refine ⟨rfl, ?_, rfl, ?_, ?_, ?_, ?_, ?_⟩ <;> rfl

/-- C9: constructing `lstore.db.Database()` removes the `./COWDAT` tree from
the working directory (ignoring failures) and sets the database path to
`COWDAT`, before and independently of any later `open(path)` call, which
touches no files; data previously persisted under `./COWDAT` is destroyed. -/
theorem init_destroys_cowdat (w : World) (p : String) (f : List String) :
    (LDatabase.init w).2.files = w.files.filter (fun g => !underCOWDAT g)
    ∧ (LDatabase.init w).1.directory = some "COWDAT"
    ∧ (f ∈ w.files → underCOWDAT f = true → f ∉ (LDatabase.init w).2.files)
    ∧ ((LDatabase.init w).1.openPath p (LDatabase.init w).2).2
        = (LDatabase.init w).2 := by
  refine ⟨rfl, rfl, ?_, rfl⟩
  intro hf hcow hmem
  have hmem' : f ∈ w.files.filter (fun g => !underCOWDAT g) := hmem
  have h2 := (List.mem_filter.mp hmem').2
  rw [hcow] at h2
  simp at h2

/-- Witness for C9: a file under `./COWDAT` is gone after construction,
also after a later `open("./M2")`. -/
theorem init_destroys_cowdat_witness :
    ["COWDAT", "tables", "Grades", "meta"] ∈ c9World.files
    ∧ ["COWDAT", "tables", "Grades", "meta"] ∉ (LDatabase.init c9World).2.files
    ∧ ((LDatabase.init c9World).1.openPath "./M2" (LDatabase.init c9World).2).2
        = (LDatabase.init c9World).2 := by
  have h := init_destroys_cowdat c9World "./M2" ["COWDAT", "tables", "Grades", "meta"]
  exact ⟨by decide, h.2.2.1 (by decide) (by decide), h.2.2.2⟩

/-- `run` and `join` never write the worker's `stats` or `result`. -/
theorem worker_run_join_frame (w : LTransactionWorker) (freshId : Nat) :
    ((w.run freshId).2.join).stats = w.stats
    ∧ ((w.run freshId).2.join).result = w.result := by
  unfold LTransactionWorker.run LTransactionWorker.join
  by_cases h : w.transactions.isEmpty <;> simp [h]

/-- `add_transaction` never writes the worker's `stats` or `result`. -/
theorem worker_add_frame (ts : List LTransaction) (w : LTransactionWorker) :
    (ts.foldl LTransactionWorker.add_transaction w).stats = w.stats
    ∧ (ts.foldl LTransactionWorker.add_transaction w).result = w.result := by
  induction ts generalizing w with
  | nil => exact ⟨rfl, rfl⟩
  | cons t rest ih =>
      obtain ⟨h1, h2⟩ := ih (w.add_transaction t)
      exact ⟨h1, h2⟩

/-- C10: for every worker built by `__init__` and any `add_transaction`
calls, after `run()` followed by `join()` the `stats` attribute is still the
empty list and `result` is still `0`: only the never-invoked private
`__run` (`runPrivate`) writes them. -/
theorem worker_stats_result_untouched (db : Nat)
    (txns added : List LTransaction) (freshId : Nat) :
    (((added.foldl LTransactionWorker.add_transaction
        (mkWorker db txns)).run freshId).2.join).stats = []
    ∧ (((added.foldl LTransactionWorker.add_transaction
        (mkWorker db txns)).run freshId).2.join).result = 0
    ∧ (LTransactionWorker.runPrivate (mkWorker db txns) [true, true]).result = 2 := by
  obtain ⟨h1, h2⟩ := worker_run_join_frame
    (added.foldl LTransactionWorker.add_transaction (mkWorker db txns)) freshId
  obtain ⟨g1, g2⟩ := worker_add_frame added (mkWorker db txns)
  exact ⟨h1.trans g1, h2.trans g2, rfl⟩

end Cowabunga
